import Mathlib

/-!
Verification of the retrieval-and-prompt-assembly core of the BinhThanhAI
backend (`server.js`, updated Word-support variant).

The embedding models:
* `escapeRegex` (server.js line 262) and the `new RegExp(escaped, 'i')` /
  Mongo `$regex` pipeline used by `POST /api/ask` (lines 417-427), via a
  small regular-expression engine with Brzozowski derivatives plus a parser
  for the pattern syntax actually reachable from the route;
* the context / prompt assembly (lines 429-445);
* the answer shaping and references projection (lines 447-463);
* the `POST /api/data` document-creation handler (lines 358-390) over the
  `ChatDataSchema` (lines 311-319);
* the `DELETE /api/data/:id` handler (lines 393-403);
* the guard ordering at the top of `POST /api/ask` (lines 406-415).

Machine strings are Lean `String`s viewed through their `List Char` data;
JavaScript's `String.prototype.trim` and `Array.prototype.join` are given
explicit structural definitions (`jsTrim`, `joinSep`) so that everything
evaluates inside the kernel.  The `'i'` regex flag is modelled as ASCII
case folding of both the pattern literals and the subject text.
-/

/-! ### Documents (ChatDataSchema, server.js lines 311-319) -/

/-- `fileType` enum of `ChatDataSchema`: `enum: ['text', 'word'], default: 'text'`. -/
inductive FileType where
  | text : FileType
  | word : FileType
deriving DecidableEq, Repr

/-- A stored `ChatData` document.  `identifier` stands for the Mongo `_id`;
`createdAt` is the sortable instant (`Date.now`), modelled as a `Nat`. -/
structure Document where
  identifier : Nat
  title : String
  content : String
  fileType : FileType
  htmlContent : Option String
  imageCount : Nat
  date : String
  createdAt : Nat
deriving DecidableEq, Repr

/-! ### JavaScript string helpers -/

/-- ASCII whitespace recognised by the model of `String.prototype.trim`. -/
def isWsChar (c : Char) : Bool :=
  c = ' ' || c = '\t' || c = '\n' || c = '\r'

/-- Model of JavaScript `value.trim()` (ASCII-whitespace fragment). -/
def jsTrim (s : String) : String :=
  ⟨((s.data.dropWhile isWsChar).reverse.dropWhile isWsChar).reverse⟩

/-- Model of JavaScript `array.join(sep)`. -/
def joinSep (sep : String) : List String → String
  | [] => ""
  | [x] => x
  | x :: xs => x ++ sep ++ joinSep sep xs

/-! ### Regular-expression engine

`POST /api/ask` builds `new RegExp(escapeRegex(question), 'i')` and uses it
as a Mongo `$regex` condition, which succeeds when the pattern matches
anywhere in the subject field.  We model enough of the JavaScript pattern
language to distinguish escaped from unescaped metacharacters: literal
characters, `\m` escapes of the metacharacters, `.`, and the postfix
quantifiers `*`, `+`, `?`.  The remaining metacharacter constructs
(alternation, groups, classes, braces, anchors) are rejected by the parser,
modelling them as unsupported; none of them can appear unescaped in a
pattern produced by `escapeRegex`. -/

inductive Regex where
  | void : Regex
  | eps : Regex
  | lit : Char → Regex
  | dot : Regex
  | seq : Regex → Regex → Regex
  | alt : Regex → Regex → Regex
  | star : Regex → Regex
deriving DecidableEq, Repr

def nullable : Regex → Bool
  | .void => false
  | .eps => true
  | .lit _ => false
  | .dot => false
  | .seq a b => nullable a && nullable b
  | .alt a b => nullable a || nullable b
  | .star _ => true

def rderiv : Regex → Char → Regex
  | .void, _ => .void
  | .eps, _ => .void
  | .lit c, d => if d = c then .eps else .void
  | .dot, _ => .eps
  | .seq a b, d => if nullable a then .alt (.seq (rderiv a d) b) (rderiv b d) else .seq (rderiv a d) b
  | .alt a b, d => .alt (rderiv a d) (rderiv b d)
  | .star a, d => .seq (rderiv a d) (.star a)

/-- Anchored match: `r` accepts exactly the word `cs`. -/
def rmatch (r : Regex) : List Char → Bool
  | [] => nullable r
  | c :: cs => rmatch (rderiv r c) cs

/-- `r` matches some prefix of `cs` starting at the current position. -/
def rsearchHere (r : Regex) : List Char → Bool
  | [] => nullable r
  | c :: cs => nullable r || rsearchHere (rderiv r c) cs

/-- Unanchored search, the semantics of JavaScript `regex.test(s)` and of a
Mongo `$regex` condition: `r` matches somewhere inside `cs`. -/
def rsearch (r : Regex) : List Char → Bool
  | [] => nullable r
  | c :: cs => rsearchHere r (c :: cs) || rsearch r cs

/-- The characters escaped by `escapeRegex`
(`/[.*+?^${}()|[\]\\]/g`, server.js line 262). -/
def metaChars : List Char :=
  ['.', '*', '+', '?', '^', '$', '\x7b', '\x7d', '(', ')', '|', '[', ']', '\\']

def isMeta (c : Char) : Bool := metaChars.contains c

/-- Per-character action of `escapeRegex`: prefix every metacharacter with
a backslash (`'\\$&'`). -/
def escChar (c : Char) : List Char :=
  if isMeta c then ['\\', c] else [c]

def escapeList (cs : List Char) : List Char := cs.flatMap escChar

/-- `escapeRegex` (server.js line 262):
`value.replace(/[.*+?^${}()|[\]\\]/g, '\\$&')`. -/
def escapeRegex (value : String) : String := ⟨escapeList value.data⟩

/-- Pattern parser.  Accumulates the atoms seen so far (reversed) so that
the postfix quantifiers can attach to the previous atom; returns `none` on
the constructs the model treats as errors or as unsupported: a trailing
backslash, a backslash escape of a non-metacharacter, a quantifier with
nothing to repeat (a JavaScript `SyntaxError`), and the bare metacharacters
`^ $ | ( ) [ ] \x7b \x7d`. -/
def parseAux : List Char → List Regex → Option (List Regex)
  | [], acc => some acc.reverse
  | c :: rest, acc =>
    if c = '\\' then
      match rest, acc with
      | [], _ => none
      | d :: rest2, acc => if isMeta d then parseAux rest2 (.lit d :: acc) else none
    else if c = '.' then parseAux rest (.dot :: acc)
    else if c = '*' then
      match acc with
      | [] => none
      | a :: acc2 => parseAux rest (.star a :: acc2)
    else if c = '+' then
      match acc with
      | [] => none
      | a :: acc2 => parseAux rest (.seq a (.star a) :: acc2)
    else if c = '?' then
      match acc with
      | [] => none
      | a :: acc2 => parseAux rest (.alt a .eps :: acc2)
    else if isMeta c then none
    else parseAux rest (.lit c :: acc)

def parseRegex (cs : List Char) : Option Regex :=
  (parseAux cs []).map (fun atoms => atoms.foldr Regex.seq Regex.eps)

/-- The regex accepting exactly the word `cs`. -/
def litRe (cs : List Char) : Regex :=
  cs.foldr (fun c r => Regex.seq (Regex.lit c) r) Regex.eps

/-- Case folding of the literals of a pattern: the model of the `'i'` flag
(ASCII fragment). -/
def foldRegex : Regex → Regex
  | .void => .void
  | .eps => .eps
  | .lit c => .lit c.toLower
  | .dot => .dot
  | .seq a b => .seq (foldRegex a) (foldRegex b)
  | .alt a b => .alt (foldRegex a) (foldRegex b)
  | .star a => .star (foldRegex a)

/-- `new RegExp(pattern, 'i')`: parse the pattern and fold its literals;
`none` models the constructor throwing (or an unsupported construct). -/
def compileRegexI (pattern : String) : Option Regex :=
  (parseRegex pattern.data).map foldRegex

/-- Case-insensitive test of a compiled `'i'` regex against a subject
string: search the case-folded subject. -/
def rtestI (r : Regex) (text : String) : Bool :=
  rsearch r (text.data.map Char.toLower)

/-! ### Literal substring containment (the specification-side matcher) -/

/-- `needle` occurs at the head of `hay`. -/
def litHere : List Char → List Char → Bool
  | [], _ => true
  | _ :: _, [] => false
  | a :: as, b :: bs => a == b && litHere as bs

/-- `needle` occurs contiguously somewhere in `hay`. -/
def containsSub (needle : List Char) : List Char → Bool
  | [] => litHere needle []
  | c :: hs => litHere needle (c :: hs) || containsSub needle hs

/-- Case-insensitive literal substring containment (ASCII case folding). -/
def ciContains (needle hay : String) : Bool :=
  containsSub (needle.data.map Char.toLower) (hay.data.map Char.toLower)

/-- A document satisfies the `$or` clause of the retrieval query for a
question, phrased as literal containment. -/
def docMatch (question : String) (d : Document) : Bool :=
  ciContains question d.title || ciContains question d.content

/-! ### selectContext (POST /api/ask, server.js lines 417-427) -/

/-- Descending order on `createdAt`, the `sort({ createdAt: -1 })` of the
fallback query. -/
def createdDesc (a b : Document) : Prop := b.createdAt ≤ a.createdAt

instance : DecidableRel createdDesc := fun a b => Nat.decLe b.createdAt a.createdAt

instance : IsTotal Document createdDesc :=
  ⟨fun a b => Nat.le_total b.createdAt a.createdAt⟩

instance : IsTrans Document createdDesc :=
  ⟨fun _ _ _ hab hbc => Nat.le_trans hbc hab⟩

def docMatchesRegex (r : Regex) (d : Document) : Bool :=
  rtestI r d.title || rtestI r d.content

/-- The retrieval step of `POST /api/ask`: build
`new RegExp(escapeRegex(question), 'i')`, query for documents whose
`title` or `content` matches (`limit(6)`, natural corpus order), and if
that yields nothing fall back to the six most recently created documents.
`none` models the regex construction throwing. -/
def selectContextE (question : String) (corpus : List Document) : Option (List Document) :=
  match compileRegexI (escapeRegex question) with
  | none => none
  | some r =>
    let ms := (corpus.filter (docMatchesRegex r)).take 6
    if ms.isEmpty then some ((List.insertionSort createdDesc corpus).take 6) else some ms

/-! ### buildPrompt (server.js lines 429-445) -/

/-- One numbered context block (`relevantData.map((item, index) => ...)`). -/
def buildDocBlock (index : Nat) (d : Document) : String :=
  let base := "Mục " ++ toString (index + 1) ++ ": " ++ d.title ++
    "\nNgày lưu: " ++ d.date ++ "\nNội dung: " ++ d.content
  if d.fileType = FileType.word ∧ 0 < d.imageCount then
    base ++ ("\n(Tài liệu Word có " ++ toString d.imageCount ++ " hình ảnh)")
  else base

def contextBlocks (docs : List Document) : List String :=
  docs.enum.map (fun p => buildDocBlock p.1 p.2)

/-- `relevantData.map(...).join('\n\n')`. -/
def buildContext (docs : List Document) : String :=
  joinSep "\n\n" (contextBlocks docs)

/-- The prompt array joined with `'\n\n'`; `context || 'Không có dữ liệu'`
substitutes the placeholder when the context string is empty. -/
def buildPrompt (question : String) (docs : List Document) : String :=
  let context := buildContext docs
  joinSep "\n\n"
    ["Bạn là trợ lý AI hỗ trợ hỏi đáp của ủy ban phường Bình Thạnh.",
     "Luôn trả lời bằng tiếng Việt, chỉ sử dụng thông tin trong dữ liệu được cung cấp và luôn ghi nhớ Quận Bình Thạnh hiện tại đã là phường Bình Thạnh.",
     "Nếu dữ liệu không đủ, hãy nói rõ và gợi ý người dùng kiểm tra lại sau.",
     "Dữ liệu:",
     (if context = "" then "Không có dữ liệu" else context),
     "Câu hỏi: " ++ question,
     "Câu trả lời chi tiết:"]

/-! ### shapeResponse (server.js lines 447-463) -/

/-- A reference entry of the `/api/ask` response: the projection of a
document to `id, title, content, fileType, htmlContent, imageCount, date`
(no `createdAt`). -/
structure Reference where
  id : Nat
  title : String
  content : String
  fileType : FileType
  htmlContent : Option String
  imageCount : Nat
  date : String
deriving DecidableEq, Repr

structure AskResponse where
  answer : String
  references : List Reference
deriving DecidableEq, Repr

def projectReference (d : Document) : Reference :=
  { id := d.identifier, title := d.title, content := d.content,
    fileType := d.fileType, htmlContent := d.htmlContent,
    imageCount := d.imageCount, date := d.date }

def fallbackAnswer : String :=
  "Tôi chưa tìm thấy thông tin phù hợp trong dữ liệu hiện có."

/-- `answer && answer.trim().length > 0 ? answer : fallback`, where a
`none` raw value models the `result.response.text` chain producing `''`. -/
def shapeAnswer (raw : Option String) : String :=
  let answer := raw.getD ""
  if answer ≠ "" ∧ 0 < (jsTrim answer).data.length then answer else fallbackAnswer

def shapeResponse (raw : Option String) (docs : List Document) : AskResponse :=
  { answer := shapeAnswer raw, references := docs.map projectReference }

/-! ### The /api/ask handler (server.js lines 406-468) -/

/-- The full route, up to the external generation call `gen` (the Gemini
model, a black box `prompt ↦ optional text`).  Errors carry the HTTP
status and message of the source. -/
def askHandler (hasModel : Bool) (gen : String → Option String)
    (corpus : List Document) (bodyQuestion : Option String) :
    Except (Nat × String) AskResponse :=
  if hasModel = false then .error (500, "Thiếu cấu hình Gemini API")
  else
    let question := jsTrim (bodyQuestion.getD "")
    if question = "" then .error (400, "Vui lòng nhập câu hỏi")
    else
      match selectContextE question corpus with
      | none => .error (500, "Không thể xử lý yêu cầu. Vui lòng thử lại.")
      | some docs => .ok (shapeResponse (gen (buildPrompt question docs)) docs)

/-! ### POST /api/data (server.js lines 358-390) -/

/-- The request body of `POST /api/data`; absent fields are `none`. -/
structure CreateDataRequest where
  title : Option String
  content : Option String
  fileType : Option String
  htmlContent : Option String
  imageCount : Option Nat
deriving DecidableEq, Repr

/-- JavaScript falsiness of an optional string (`undefined` or `''`). -/
def isFalsyStr : Option String → Bool
  | none => true
  | some s => s = ""

/-- The `ChatDataSchema` enum validation applied on `save()`. -/
def parseFileType (s : String) : Option FileType :=
  if s = "text" then some FileType.text
  else if s = "word" then some FileType.word
  else none

/-- The creation handler: reject missing title/content (400), default
`fileType` to `'text'`, store `htmlContent || null` and `imageCount || 0`
as given, and let the schema enum validation reject other `fileType`
values.  `newId`, `date` and `now` stand for the externally generated
`_id`, display date and `Date.now` instant. -/
def createData (req : CreateDataRequest) (newId : Nat) (date : String) (now : Nat) :
    Except String Document :=
  if isFalsyStr req.title || isFalsyStr req.content then
    .error "Title and content are required"
  else
    let ftStr := match req.fileType with
      | none => "text"
      | some s => if s = "" then "text" else s
    match parseFileType ftStr with
    | none => .error "fileType is not a valid enum value"
    | some ft =>
      .ok { identifier := newId,
            title := req.title.getD "",
            content := req.content.getD "",
            fileType := ft,
            htmlContent := match req.htmlContent with
              | none => none
              | some h => if h = "" then none else some h,
            imageCount := req.imageCount.getD 0,
            date := date,
            createdAt := now }

/-! ### DELETE /api/data/:id (server.js lines 393-403) -/

def deleteMessage : String := "Deleted successfully"

/-- `findByIdAndDelete(id)` removes the (unique) matching document if one
exists; the route then answers the success message unconditionally. -/
def deleteData (store : List Document) (idv : Nat) : List Document × String :=
  (store.eraseP (fun d => d.identifier == idv), deleteMessage)

/-! ### Sample data used by concrete witnesses -/

def sampleDoc1 : Document :=
  { identifier := 1, title := "Lịch họp", content := "Họp vào thứ 2",
    fileType := FileType.text, htmlContent := none, imageCount := 0,
    date := "01/07/2025", createdAt := 10 }

def sampleDoc2 : Document :=
  { identifier := 2, title := "Thông báo", content := "Nội dung mới",
    fileType := FileType.word, htmlContent := some "<p>tb</p>", imageCount := 2,
    date := "02/07/2025", createdAt := 20 }

def sampleDoc3 : Document :=
  { identifier := 3, title := "Biểu mẫu", content := "Giấy tờ cần có",
    fileType := FileType.text, htmlContent := none, imageCount := 0,
    date := "03/07/2025", createdAt := 5 }

/-- A generation stub that always answers. -/
def genOK : String → Option String := fun _ => some "OK"

/-- A generation stub that never produces text. -/
def genNone : String → Option String := fun _ => none

/-- A creation request that pairs `fileType` text (omitted, hence the
default) with a non-null `htmlContent`. -/
def reqTextWithHtml : CreateDataRequest :=
  { title := some "Thông báo", content := some "Nội dung",
    fileType := none, htmlContent := some "<p>hi</p>", imageCount := none }

/-- The document `POST /api/data` stores for `reqTextWithHtml`. -/
def docTextWithHtml : Document :=
  { identifier := 7, title := "Thông báo", content := "Nội dung",
    fileType := FileType.text, htmlContent := some "<p>hi</p>",
    imageCount := 0, date := "05/07/2025", createdAt := 30 }

/-- A creation request with an explicit `'text'` file type and no
`htmlContent`. -/
def reqPlainText : CreateDataRequest :=
  { title := some "Lịch", content := some "Nội dung",
    fileType := some "text", htmlContent := none, imageCount := some 1 }

/-- The document `POST /api/data` stores for `reqPlainText`. -/
def docPlainText : Document :=
  { identifier := 8, title := "Lịch", content := "Nội dung",
    fileType := FileType.text, htmlContent := none,
    imageCount := 1, date := "06/07/2025", createdAt := 40 }

/-! ## Lemmas about the regex engine -/

theorem rsearchHere_alt (a b : Regex) (cs : List Char) :
    rsearchHere (Regex.alt a b) cs = (rsearchHere a cs || rsearchHere b cs) := by
  induction cs generalizing a b with
  | nil => simp [rsearchHere, nullable]
  | cons c cs ih =>
    simp [rsearchHere, nullable, rderiv, ih, Bool.or_assoc, Bool.or_comm, Bool.or_left_comm]

theorem rsearchHere_seq_void (r : Regex) (cs : List Char) :
    rsearchHere (Regex.seq Regex.void r) cs = false := by
  induction cs generalizing r with
  | nil => simp [rsearchHere, nullable]
  | cons c cs ih => simp [rsearchHere, nullable, rderiv, ih]

theorem rsearchHere_seq_eps (r : Regex) (cs : List Char) :
    rsearchHere (Regex.seq Regex.eps r) cs = rsearchHere r cs := by
  cases cs with
  | nil => simp [rsearchHere, nullable]
  | cons c cs =>
    simp [rsearchHere, nullable, rderiv, rsearchHere_alt, rsearchHere_seq_void]

theorem rsearchHere_litRe (n : List Char) (h : List Char) :
    rsearchHere (litRe n) h = litHere n h := by
  induction n generalizing h with
  | nil =>
    cases h with
    | nil => simp [litRe, rsearchHere, nullable, litHere]
    | cons c cs => simp [litRe, rsearchHere, nullable, litHere]
  | cons a as ih =>
    cases h with
    | nil => simp [litRe, rsearchHere, nullable, litHere]
    | cons b bs =>
      by_cases hba : b = a
      · subst hba
        have hstep : litRe (b :: as) = Regex.seq (Regex.lit b) (litRe as) := rfl
        rw [hstep]
        simp [rsearchHere, nullable, rderiv, litHere, rsearchHere_seq_eps, ih]
      · simp [litRe, rsearchHere, nullable, rderiv, hba, litHere, rsearchHere_seq_void,
          Ne.symm hba]

theorem rsearch_litRe (n : List Char) (h : List Char) :
    rsearch (litRe n) h = containsSub n h := by
  induction h with
  | nil =>
    have := rsearchHere_litRe n []
    simpa [rsearch, rsearchHere, containsSub] using this
  | cons c hs ih =>
    simp [rsearch, containsSub, rsearchHere_litRe, ih]

theorem parseAux_cons_escaped (d : Char) (rest : List Char) (acc : List Regex)
    (hm : isMeta d = true) :
    parseAux ('\\' :: d :: rest) acc = parseAux rest (Regex.lit d :: acc) := by
  rw [parseAux.eq_def]
  simp [hm]

theorem parseAux_cons_plain (c : Char) (rest : List Char) (acc : List Regex)
    (hm : isMeta c = false) :
    parseAux (c :: rest) acc = parseAux rest (Regex.lit c :: acc) := by
  have h1 : ¬(c = '\\') := by intro h; subst h; revert hm; decide
  have h2 : ¬(c = '.') := by intro h; subst h; revert hm; decide
  have h3 : ¬(c = '*') := by intro h; subst h; revert hm; decide
  have h4 : ¬(c = '+') := by intro h; subst h; revert hm; decide
  have h5 : ¬(c = '?') := by intro h; subst h; revert hm; decide
  rw [parseAux.eq_def]
  simp only [h1, h2, h3, h4, h5, hm, if_false, ite_false, Bool.false_eq_true]

theorem parseAux_escape (q : List Char) : ∀ acc : List Regex,
    parseAux (escapeList q) acc = some (acc.reverse ++ q.map Regex.lit) := by
  induction q with
  | nil => intro acc; simp [escapeList, parseAux]
  | cons c q ih =>
    intro acc
    have hesc : escapeList (c :: q) = escChar c ++ escapeList q := by
      simp [escapeList]
    rw [hesc]
    by_cases hm : isMeta c = true
    · rw [show escChar c = ['\\', c] from by simp [escChar, hm]]
      rw [show (['\\', c] ++ escapeList q) = '\\' :: c :: escapeList q from rfl]
      rw [parseAux_cons_escaped c (escapeList q) acc hm, ih]
      simp
    · have hm2 : isMeta c = false := by simpa using hm
      rw [show escChar c = [c] from by simp [escChar, hm2]]
      rw [show ([c] ++ escapeList q) = c :: escapeList q from rfl]
      rw [parseAux_cons_plain c (escapeList q) acc hm2, ih]
      simp

theorem foldr_seq_map_lit (q : List Char) :
    List.foldr Regex.seq Regex.eps (q.map Regex.lit) = litRe q := by
  induction q with
  | nil => rfl
  | cons c q ih =>
    have hstep : litRe (c :: q) = Regex.seq (Regex.lit c) (litRe q) := rfl
    simp only [List.map_cons, List.foldr_cons, hstep, ih]

theorem parseRegex_escape (q : List Char) :
    parseRegex (escapeList q) = some (litRe q) := by
  rw [parseRegex, parseAux_escape q []]
  show some (List.foldr Regex.seq Regex.eps ([].reverse ++ q.map Regex.lit)) = some (litRe q)
  rw [List.reverse_nil, List.nil_append, foldr_seq_map_lit]

theorem foldRegex_litRe (cs : List Char) :
    foldRegex (litRe cs) = litRe (cs.map Char.toLower) := by
  induction cs with
  | nil => rfl
  | cons c cs ih =>
    have hstep : litRe (c :: cs) = Regex.seq (Regex.lit c) (litRe cs) := rfl
    have hstep2 : litRe (Char.toLower c :: cs.map Char.toLower) =
        Regex.seq (Regex.lit c.toLower) (litRe (cs.map Char.toLower)) := rfl
    rw [hstep]
    simp only [List.map_cons, hstep2, foldRegex]
    rw [ih]

theorem compileRegexI_escape (q : String) :
    compileRegexI (escapeRegex q) = some (litRe (q.data.map Char.toLower)) := by
  rw [compileRegexI, show (escapeRegex q).data = escapeList q.data from rfl,
    parseRegex_escape]
  simp [foldRegex_litRe]

theorem rtestI_litRe (q t : String) :
    rtestI (litRe (q.data.map Char.toLower)) t = ciContains q t := by
  rw [rtestI, ciContains, rsearch_litRe]

theorem docMatchesRegex_litRe (q : String) (d : Document) :
    docMatchesRegex (litRe (q.data.map Char.toLower)) d = docMatch q d := by
  rw [docMatchesRegex, docMatch, rtestI_litRe, rtestI_litRe]

theorem selectContextE_eq (question : String) (corpus : List Document) :
    selectContextE question corpus =
      some (if ((corpus.filter (docMatch question)).take 6).isEmpty then
              (List.insertionSort createdDesc corpus).take 6
            else (corpus.filter (docMatch question)).take 6) := by
  rw [selectContextE, compileRegexI_escape]
  have hfil : corpus.filter (docMatchesRegex (litRe (question.data.map Char.toLower))) =
      corpus.filter (docMatch question) := by
    apply List.filter_congr
    intro d _
    rw [docMatchesRegex_litRe]
  simp only [hfil]
  split <;> rfl

/-! ## Claim theorems -/

/-- Claim C2: for every question string, including strings made only of
regex metacharacters, compiling `escapeRegex question` with the `'i'` flag
succeeds (never raises an error) and the resulting regex tests any text
exactly as case-insensitive literal substring containment — never as a
wildcard pattern. -/
theorem c2_escaped_question_literal_total (question : String) :
    ∃ r, compileRegexI (escapeRegex question) = some r ∧
      ∀ text : String, rtestI r text = ciContains question text :=
  ⟨litRe (question.data.map Char.toLower), compileRegexI_escape question,
    fun t => rtestI_litRe question t⟩

/-- Claim C1: for every question and corpus `selectContextE` succeeds and
returns at most 6 documents, and whenever at least one document's title or
content contains the question as a case-insensitive literal substring, the
result is exactly the literal matches capped at 6 (in corpus order), is
non-empty, consists only of literal matches, and the recency fallback is
not used. -/
theorem c1_selectContext_bound_and_literal (question : String) (corpus : List Document) :
    (∀ res, selectContextE question corpus = some res → res.length ≤ 6) ∧
    ((∃ d, d ∈ corpus ∧ docMatch question d = true) →
      selectContextE question corpus =
          some ((corpus.filter (docMatch question)).take 6) ∧
        (corpus.filter (docMatch question)).take 6 ≠ [] ∧
        ∀ d ∈ (corpus.filter (docMatch question)).take 6, docMatch question d = true) := by
  have hsel := selectContextE_eq question corpus
  constructor
  · intro res hres
    rw [hsel] at hres
    have h2 : res = if ((corpus.filter (docMatch question)).take 6).isEmpty then
        (List.insertionSort createdDesc corpus).take 6
      else (corpus.filter (docMatch question)).take 6 := (Option.some.inj hres).symm
    rw [h2]
    split
    · exact List.length_take_le 6 _
    · exact List.length_take_le 6 _
  · rintro ⟨d, hd, hmatch⟩
    have hmem : d ∈ corpus.filter (docMatch question) := List.mem_filter.mpr ⟨hd, hmatch⟩
    have hne : corpus.filter (docMatch question) ≠ [] := by
      intro h0
      rw [h0] at hmem
      exact absurd hmem (List.not_mem_nil d)
    have htake : (corpus.filter (docMatch question)).take 6 ≠ [] := by
      intro h0
      rcases List.take_eq_nil_iff.mp h0 with h1 | h1 <;> first
        | exact absurd h1 hne
        | exact absurd h1 (by decide)
    have hie : ((corpus.filter (docMatch question)).take 6).isEmpty = false := by
      cases hcase : (corpus.filter (docMatch question)).take 6 with
      | nil => exact absurd hcase htake
      | cons a l => rfl
    refine ⟨?_, htake, ?_⟩
    · rw [hsel, hie]
      simp
    · intro x hx
      have hxf : x ∈ corpus.filter (docMatch question) := List.take_subset 6 _ hx
      exact (List.mem_filter.mp hxf).2

/-- Witness for C1 at the concrete corpus `[sampleDoc1, sampleDoc2]` and
question `"lịch"`, which matches `sampleDoc1`'s title case-insensitively. -/
theorem c1_witness :
    selectContextE "lịch" [sampleDoc1, sampleDoc2] =
        some (([sampleDoc1, sampleDoc2].filter (docMatch "lịch")).take 6) ∧
      ([sampleDoc1, sampleDoc2].filter (docMatch "lịch")).take 6 ≠ [] ∧
      (([sampleDoc1, sampleDoc2].filter (docMatch "lịch")).take 6).length ≤ 6 := by
  have h := c1_selectContext_bound_and_literal "lịch" [sampleDoc1, sampleDoc2]
  have h2 := h.2 ⟨sampleDoc1, by decide, by decide⟩
  exact ⟨h2.1, h2.2.1, h.1 _ h2.1⟩

/-- Claim C3: when no document's title or content contains the question as
a case-insensitive literal substring, `selectContextE` returns the first 6
documents of the corpus sorted newest-first by `createdAt`: the result has
`min 6 n` documents, is ordered newest first, draws from the corpus, and
no excluded document is newer than any returned one. -/
theorem c3_fallback_most_recent (question : String) (corpus : List Document)
    (h : ∀ d ∈ corpus, docMatch question d = false) :
    selectContextE question corpus =
        some ((List.insertionSort createdDesc corpus).take 6) ∧
      ((List.insertionSort createdDesc corpus).take 6).length = min 6 corpus.length ∧
      List.Sorted createdDesc ((List.insertionSort createdDesc corpus).take 6) ∧
      (∀ d ∈ (List.insertionSort createdDesc corpus).take 6, d ∈ corpus) ∧
      (∀ d ∈ corpus, d ∉ (List.insertionSort createdDesc corpus).take 6 →
        ∀ e ∈ (List.insertionSort createdDesc corpus).take 6, d.createdAt ≤ e.createdAt) := by
  have hfil : corpus.filter (docMatch question) = [] := by
    apply List.filter_eq_nil_iff.mpr
    intro a ha
    simp [h a ha]
  have hsel := selectContextE_eq question corpus
  rw [hfil, List.take_nil] at hsel
  rw [show (([] : List Document).isEmpty = true) from rfl] at hsel
  simp only [if_true] at hsel
  refine ⟨hsel, ?_, ?_, ?_, ?_⟩
  · rw [List.length_take, (List.perm_insertionSort createdDesc corpus).length_eq]
  · exact List.Pairwise.sublist (List.take_sublist 6 _)
      (List.sorted_insertionSort createdDesc corpus)
  · intro d hd
    exact (List.mem_insertionSort createdDesc).mp (List.take_subset 6 _ hd)
  · intro d hd hdnot e he
    have hsorted : List.Pairwise createdDesc (List.insertionSort createdDesc corpus) :=
      List.sorted_insertionSort createdDesc corpus
    have hsplit : List.insertionSort createdDesc corpus =
        (List.insertionSort createdDesc corpus).take 6 ++
          (List.insertionSort createdDesc corpus).drop 6 :=
      (List.take_append_drop 6 _).symm
    have hdin : d ∈ List.insertionSort createdDesc corpus :=
      (List.mem_insertionSort createdDesc).mpr hd
    rw [hsplit] at hdin
    rcases List.mem_append.mp hdin with hl | hr
    · exact absurd hl hdnot
    · rw [hsplit, List.pairwise_append] at hsorted
      exact hsorted.2.2 e he d hr

/-- Witness for C3: the question `"xyz"` matches nothing in
`[sampleDoc1, sampleDoc2, sampleDoc3]`, so the recency fallback fires. -/
theorem c3_witness :
    selectContextE "xyz" [sampleDoc1, sampleDoc2, sampleDoc3] =
        some ((List.insertionSort createdDesc [sampleDoc1, sampleDoc2, sampleDoc3]).take 6) ∧
      ((List.insertionSort createdDesc [sampleDoc1, sampleDoc2, sampleDoc3]).take 6).length =
        min 6 [sampleDoc1, sampleDoc2, sampleDoc3].length ∧
      List.Sorted createdDesc
        ((List.insertionSort createdDesc [sampleDoc1, sampleDoc2, sampleDoc3]).take 6) := by
  have h := c3_fallback_most_recent "xyz" [sampleDoc1, sampleDoc2, sampleDoc3] (by decide)
  exact ⟨h.1, h.2.1, h.2.2.1⟩

theorem append_ne_empty_of_left (s t : String) (h : s.data ≠ []) : s ++ t ≠ "" := by
  intro hc
  apply h
  have hd := congrArg String.data hc
  rw [String.data_append] at hd
  exact (List.append_eq_nil.mp hd).1

/-- Claim C4: if the raw generated text is absent, empty, or
whitespace-only, the shaped answer is the fixed fallback message; and the
answer surfaced to the caller is never empty or whitespace-only. -/
theorem c4_answer_never_blank (raw : Option String) (docs : List Document) :
    ((raw = none ∨ jsTrim (raw.getD "") = "") →
      (shapeResponse raw docs).answer = fallbackAnswer) ∧
    jsTrim (shapeResponse raw docs).answer ≠ "" := by
  constructor
  · intro h
    show shapeAnswer raw = fallbackAnswer
    rcases h with h | h
    · subst h; rfl
    · rw [shapeAnswer]
      have hno : ¬((raw.getD "") ≠ "" ∧ 0 < (jsTrim (raw.getD "")).data.length) := by
        rintro ⟨_, h2⟩
        rw [h] at h2
        simp at h2
      rw [if_neg hno]
  · show jsTrim (shapeAnswer raw) ≠ ""
    rw [shapeAnswer]
    split
    · next hcond =>
      intro hc
      have hdata := congrArg String.data hc
      rw [show ("" : String).data = [] from rfl] at hdata
      have h2 := hcond.2
      rw [hdata] at h2
      simp at h2
    · exact (by decide : jsTrim fallbackAnswer ≠ "")

/-- Witness for C4 at the whitespace-only raw text `"   "`. -/
theorem c4_witness :
    (shapeResponse (some "   ") []).answer = fallbackAnswer ∧
    jsTrim (shapeResponse (some "   ") []).answer ≠ "" :=
  ⟨(c4_answer_never_blank (some "   ") []).1 (Or.inr (by decide)),
   (c4_answer_never_blank (some "   ") []).2⟩

/-- Claim C5: for every question, the prompt built over an empty document
list carries the fixed placeholder `Không có dữ liệu` as its context
section, and the prompt is always a single non-empty string. -/
theorem c5_empty_corpus_placeholder (question : String) (docs : List Document) :
    buildPrompt question [] = joinSep "\n\n"
      ["Bạn là trợ lý AI hỗ trợ hỏi đáp của ủy ban phường Bình Thạnh.",
       "Luôn trả lời bằng tiếng Việt, chỉ sử dụng thông tin trong dữ liệu được cung cấp và luôn ghi nhớ Quận Bình Thạnh hiện tại đã là phường Bình Thạnh.",
       "Nếu dữ liệu không đủ, hãy nói rõ và gợi ý người dùng kiểm tra lại sau.",
       "Dữ liệu:",
       "Không có dữ liệu",
       "Câu hỏi: " ++ question,
       "Câu trả lời chi tiết:"] ∧
    buildPrompt question docs ≠ "" := by
  constructor
  · rfl
  · exact append_ne_empty_of_left _ _ (by decide)

theorem string_append_empty (s : String) : s ++ "" = s := by
  cases s with
  | mk data =>
    have : (String.mk data ++ "").data = data := by
      rw [String.data_append]
      simp
    cases hc : String.mk data ++ ""
    rw [hc] at this
    simp at this
    rw [this]

/-- Claim C7: the context of a non-empty document list is the blank-line
join of one numbered block per document, each block carrying the 1-based
index, title, display date and content, with the embedded-image annotation
appended exactly when the document is a Word file with a positive image
count. -/
theorem c7_numbered_blocks (docs : List Document) (hne : docs ≠ []) :
    buildContext docs = joinSep "\n\n" (docs.enum.map (fun p =>
      ("Mục " ++ toString (p.1 + 1) ++ ": " ++ p.2.title ++ "\nNgày lưu: " ++ p.2.date ++
        "\nNội dung: " ++ p.2.content) ++
      (if p.2.fileType = FileType.word ∧ 0 < p.2.imageCount then
        "\n(Tài liệu Word có " ++ toString p.2.imageCount ++ " hình ảnh)" else ""))) := by
  rw [buildContext, contextBlocks]
  congr 1
  apply List.map_congr_left
  intro p hp
  rw [buildDocBlock]
  split
  · rfl
  · exact (string_append_empty _).symm

/-- Witness for C7 at the non-empty list `[sampleDoc1, sampleDoc2]`
(one plain text document, one Word document with two images). -/
theorem c7_witness :
    buildContext [sampleDoc1, sampleDoc2] =
      joinSep "\n\n" ([sampleDoc1, sampleDoc2].enum.map (fun p =>
        ("Mục " ++ toString (p.1 + 1) ++ ": " ++ p.2.title ++ "\nNgày lưu: " ++ p.2.date ++
          "\nNội dung: " ++ p.2.content) ++
        (if p.2.fileType = FileType.word ∧ 0 < p.2.imageCount then
          "\n(Tài liệu Word có " ++ toString p.2.imageCount ++ " hình ảnh)" else ""))) :=
  c7_numbered_blocks [sampleDoc1, sampleDoc2] (by decide)

/-- Claim C8: every successful `/api/ask` response carries as `references`
exactly the document list selected for the question (same documents, same
order, same length), each projected to id, title, content, fileType,
htmlContent, imageCount and date (the `Reference` shape, which omits
`createdAt`). -/
theorem c8_references_projection (hasModel : Bool) (gen : String → Option String)
    (corpus : List Document) (bq : Option String) (resp : AskResponse)
    (h : askHandler hasModel gen corpus bq = .ok resp) :
    ∃ docs, selectContextE (jsTrim (bq.getD "")) corpus = some docs ∧
      resp.references = docs.map (fun d =>
        { id := d.identifier, title := d.title, content := d.content,
          fileType := d.fileType, htmlContent := d.htmlContent,
          imageCount := d.imageCount, date := d.date }) ∧
      resp.references.length = docs.length := by
  simp only [askHandler] at h
  split at h
  · exact absurd h (by simp)
  · split at h
    · exact absurd h (by simp)
    · cases hsel : selectContextE (jsTrim (bq.getD "")) corpus with
      | none =>
        rw [hsel] at h
        exact absurd h (by simp)
      | some docs =>
        rw [hsel] at h
        have hr := Except.ok.inj h
        refine ⟨docs, rfl, ?_, ?_⟩
        · rw [← hr]
          rfl
        · rw [← hr]
          show (docs.map projectReference).length = docs.length
          rw [List.length_map]

/-- Witness for C8: a successful concrete call on `[sampleDoc1]` with the
question `" lịch "`. -/
theorem c8_witness :
    ∃ docs, selectContextE (jsTrim ((some " lịch ").getD "")) [sampleDoc1] = some docs ∧
      (shapeResponse (some "OK") [sampleDoc1]).references = docs.map (fun d =>
        { id := d.identifier, title := d.title, content := d.content,
          fileType := d.fileType, htmlContent := d.htmlContent,
          imageCount := d.imageCount, date := d.date }) ∧
      (shapeResponse (some "OK") [sampleDoc1]).references.length = docs.length :=
  c8_references_projection true genOK [sampleDoc1] (some " lịch ")
    (shapeResponse (some "OK") [sampleDoc1]) rfl

/-- Claim C9: `DELETE /api/data/:id` answers the fixed success message for
every identifier, and deleting an identifier that matches no stored
document leaves the store unchanged and still reports success. -/
theorem c9_delete_idempotent (store : List Document) (idv : Nat) :
    (deleteData store idv).2 = deleteMessage ∧
    ((∀ d ∈ store, d.identifier ≠ idv) → deleteData store idv = (store, deleteMessage)) := by
  constructor
  · rfl
  · intro h
    rw [deleteData]
    have herase : store.eraseP (fun d => d.identifier == idv) = store := by
      apply List.eraseP_of_forall_not
      intro a ha
      simp [h a ha]
    rw [herase]

/-- Witness for C9: deleting the absent identifier 99 from
`[sampleDoc1]`. -/
theorem c9_witness :
    (deleteData [sampleDoc1] 99).2 = deleteMessage ∧
    deleteData [sampleDoc1] 99 = ([sampleDoc1], deleteMessage) :=
  ⟨(c9_delete_idempotent [sampleDoc1] 99).1,
   (c9_delete_idempotent [sampleDoc1] 99).2 (by decide)⟩

/-- Claim C10: in `POST /api/ask` the provider-configuration check runs
before question validation: with no provider configured the answer is the
500 configuration error whatever the question, and the 400 empty-question
error can only be produced when a provider is configured. -/
theorem c10_provider_guard_first (gen : String → Option String)
    (corpus : List Document) (bq : Option String) (hasModel : Bool) :
    askHandler false gen corpus bq = .error (500, "Thiếu cấu hình Gemini API") ∧
    (askHandler hasModel gen corpus bq = .error (400, "Vui lòng nhập câu hỏi") →
      hasModel = true) := by
  constructor
  · rfl
  · intro h
    cases hasModel with
    | true => rfl
    | false =>
      rw [show askHandler false gen corpus bq =
        Except.error ((500 : Nat), "Thiếu cấu hình Gemini API") from rfl] at h
      simp at h

/-- Witness for C10: with no provider and a whitespace-only question the
response is the 500 configuration error, and the 400 branch hypothesis is
dischargeable at `hasModel = true`. -/
theorem c10_witness :
    askHandler false genNone [] (some " ") = .error (500, "Thiếu cấu hình Gemini API") ∧
    (true : Bool) = true :=
  ⟨(c10_provider_guard_first genNone [] (some " ") true).1,
   (c10_provider_guard_first genNone [] (some " ") true).2 rfl⟩

/-- Counterexample to claim C6: `POST /api/data` stores
`htmlContent || null` without checking `fileType`, so the request
`reqTextWithHtml` (fileType omitted, hence `'text'`, together with a
non-null `htmlContent`) creates a `'text'` document whose `htmlContent` is
not null. -/
theorem c6_counterexample :
    createData reqTextWithHtml 7 "05/07/2025" 30 = Except.ok docTextWithHtml ∧
    docTextWithHtml.fileType = FileType.text ∧
    docTextWithHtml.htmlContent ≠ none :=
  ⟨rfl, rfl, by decide⟩

/-- Claim C6 as amended: a document created by `POST /api/data` has
`htmlContent = null` whenever the request does not supply a non-empty
`htmlContent`; the endpoint does not otherwise enforce the
text-implies-null invariant. -/
theorem c6_amended_html_null_when_not_supplied (req : CreateDataRequest)
    (newId : Nat) (date : String) (now : Nat) (d : Document)
    (hreq : req.htmlContent = none ∨ req.htmlContent = some "")
    (h : createData req newId date now = Except.ok d) :
    d.htmlContent = none := by
  simp only [createData] at h
  split at h
  · exact absurd h (by simp)
  · split at h
    · exact absurd h (by simp)
    · have hd := Except.ok.inj h
      rw [← hd]
      rcases hreq with hr | hr <;> simp [hr]

/-- Witness for the amended C6 at the concrete request `reqPlainText`
(explicit `'text'` file type, no `htmlContent`). -/
theorem c6_witness : docPlainText.htmlContent = none :=
  c6_amended_html_null_when_not_supplied reqPlainText 8 "06/07/2025" 40 docPlainText
    (Or.inl rfl) rfl
